import Mathlib

/-!
# Alaska Aviation Incidents — verification of the CSV/normalization pipeline

Shallow embedding of the client-side incident-browser code (`src/app.js`
and the unnamed variant files).  The repository ships several variants of
`app.js`; definitions below name which variant and function they embed.

JavaScript strings become `String`/`List Char`; JS objects built by
`obj[header] = cell` become association lists with last-write-wins lookup;
environment-dependent operations (`Date.parse`, `new Date(y,m,d)`,
`Intl.DateTimeFormat`) become fields of an explicit `JsEnv` record, since
their results depend on the browser, its locale and the IANA database.
-/

/-- The whitespace characters JS `String.prototype.trim` strips, restricted
to the ASCII ones that occur in this data (JS also strips further Unicode
space code points; none of the claims involves them). -/
def isJsSpace (c : Char) : Bool := c = ' ' ∨ c = '\t' ∨ c = '\n' ∨ c = '\r'

/-- JS `trim` on the character list: drop leading and trailing whitespace. -/
def jsTrimList (cs : List Char) : List Char :=
  ((cs.dropWhile isJsSpace).reverse.dropWhile isJsSpace).reverse

/-- JS `s.trim()`. -/
def jsTrim (s : String) : String := String.mk (jsTrimList s.data)

/-- The helper `norm` from `app.js`: `(s ?? "").toString().trim()` applied to a string. -/
def norm (s : String) : String := jsTrim s

/-- JS `s.toUpperCase()` (ASCII mapping, as all state codes are ASCII). -/
def jsToUpper (s : String) : String := String.mk (s.data.map Char.toUpper)

/-- JS `s.toLowerCase()` (ASCII mapping; the data is ASCII). -/
def jsToLower (s : String) : String := String.mk (s.data.map Char.toLower)

/-- JS object property read for an object built by successive
`obj[h] = v` assignments (duplicate keys: the last assignment wins).
`none` models `undefined`. -/
def jsGet (row : List (String × String)) (k : String) : Option String :=
  (row.reverse.find? (fun p => p.1 = k)).map (·.2)

/-- Raw record field read as used by the variant-2 code (`r.event_date`
etc.): an absent property (`undefined`) and the empty string are both
falsy, so the default is `""`. -/
def fieldOf (row : List (String × String)) (k : String) : String :=
  (jsGet row k).getD ""

/-- The resolver `getAny` from `app.js` lines 71-77: first alias whose value is present
and non-empty after trimming, else `""`. -/
def getAny (obj : List (String × String)) (keys : List String) : String :=
  match keys with
  | [] => ""
  | k :: ks =>
    match jsGet obj k with
    | some v => if norm v ≠ "" then norm v else getAny obj ks
    | none => getAny obj ks

/-- JS `a || b` on strings: `""` is falsy. -/
def jsOr (a b : String) : String := if a = "" then b else a

/-! ## CSV tokenizer of `src/app.js` lines 23-65 (`parseCsv`, first variant)

The loop walks the text with a one-character lookahead.  Cells and rows are
accumulated in order; `inQuotes` is the quote-mode flag.  A row is pushed at
a newline only when it has more than one cell or its single cell trims to a
non-empty string; the end-of-input flush pushes whenever the pending cell or
row is non-empty. -/

/-- The newline-time row push of `parseCsv` (line 51):
`if (row.length > 1 || (row.length === 1 && row[0].trim() !== "")) rows.push(row)`. -/
def pushRowNl (rows : List (List (List Char))) (row2 : List (List Char)) :
    List (List (List Char)) :=
  if 1 < row2.length ∨ (row2.length = 1 ∧ jsTrimList (row2.headD []) ≠ []) then
    rows ++ [row2]
  else rows

/-- Character loop of `parseCsv` (`src/app.js` lines 29-56) plus the final
flush (lines 59-62).  `rows`/`row`/`cur` are the accumulators, `inQuotes`
the quote flag; the list argument is the remaining input. -/
def parseCsvGo (rows : List (List (List Char))) (row : List (List Char))
    (cur : List Char) (inQuotes : Bool) : List Char → List (List (List Char))
  | [] =>
    if cur ≠ [] ∨ row ≠ [] then rows ++ [row ++ [cur]] else rows
  | [c] =>
    if c = '"' then
      parseCsvGo rows row cur (!inQuotes) []
    else if c = ',' ∧ inQuotes = false then
      parseCsvGo rows (row ++ [cur]) [] inQuotes []
    else if (c = '\n' ∨ c = '\r') ∧ inQuotes = false then
      parseCsvGo (pushRowNl rows (row ++ [cur])) [] [] inQuotes []
    else
      parseCsvGo rows row (cur ++ [c]) inQuotes []
  | c :: c2 :: rest =>
    if c = '"' ∧ inQuotes = true ∧ c2 = '"' then
      parseCsvGo rows row (cur ++ ['"']) inQuotes rest
    else if c = '"' then
      parseCsvGo rows row cur (!inQuotes) (c2 :: rest)
    else if c = ',' ∧ inQuotes = false then
      parseCsvGo rows (row ++ [cur]) [] inQuotes (c2 :: rest)
    else if (c = '\n' ∨ c = '\r') ∧ inQuotes = false then
      if c = '\r' ∧ c2 = '\n' then
        parseCsvGo (pushRowNl rows (row ++ [cur])) [] [] inQuotes rest
      else
        parseCsvGo (pushRowNl rows (row ++ [cur])) [] [] inQuotes (c2 :: rest)
    else
      parseCsvGo rows row (cur ++ [c]) inQuotes (c2 :: rest)

/-- The tokenizer `parseCsv(text)` from `src/app.js` lines 23-65 (first variant). -/
def parseCsv (text : String) : List (List String) :=
  (parseCsvGo [] [] [] false text.data).map (fun r => r.map String.mk)

/-- Body of the RFC4180 quote escaping: `s.replace(/"/g, '""')`. -/
def escBody : List Char → List Char
  | [] => []
  | c :: cs => if c = '"' then '"' :: '"' :: escBody cs else c :: escBody cs

/-- The writer `csvEscape` from `src/app.js` lines 548-553: wrap in quotes when the
value contains a comma, quote, or newline (the regex also covers `\r`),
doubling any embedded quotes. -/
def csvEscape (value : String) : String :=
  if value.data.any (fun c => c = '"' ∨ c = ',' ∨ c = '\n' ∨ c = '\r') then
    String.mk ('"' :: (escBody value.data ++ ['"']))
  else value

/-! ## CSV tokenizer of `src/unnamed/part_002` lines 60-141 (`parseCsv` with
`pushField`/`pushRow` helpers)

This variant filters at `pushRow` (lines 72-77): a row is appended only
when not every cell trims to the empty string, and the final
`pushField(); pushRow()` at end of input goes through the same filter. -/

/-- The helper `pushRow` from `src/unnamed/part_002` lines 72-77: ignore rows whose
cells are all empty or whitespace-only. -/
def pushRowPR (rows : List (List (List Char))) (row : List (List Char)) :
    List (List (List Char)) :=
  if row.all (fun c => jsTrimList c = []) then rows else rows ++ [row]

/-- Main loop of the `part_002` tokenizer (lines 79-134) plus the final
`pushField(); pushRow()` (lines 137-138). -/
def parseCsvPRGo (rows : List (List (List Char))) (row : List (List Char))
    (field : List Char) (inQuotes : Bool) : List Char → List (List (List Char))
  | [] => pushRowPR rows (row ++ [field])
  | [c] =>
    if inQuotes = true then
      if c = '"' then parseCsvPRGo rows row field false []
      else parseCsvPRGo rows row (field ++ [c]) inQuotes []
    else
      if c = '"' then parseCsvPRGo rows row field true []
      else if c = ',' then parseCsvPRGo rows (row ++ [field]) [] inQuotes []
      else if c = '\n' then parseCsvPRGo (pushRowPR rows (row ++ [field])) [] [] inQuotes []
      else if c = '\r' then parseCsvPRGo (pushRowPR rows (row ++ [field])) [] [] inQuotes []
      else parseCsvPRGo rows row (field ++ [c]) inQuotes []
  | c :: c2 :: rest =>
    if inQuotes = true then
      if c = '"' ∧ c2 = '"' then parseCsvPRGo rows row (field ++ ['"']) inQuotes rest
      else if c = '"' then parseCsvPRGo rows row field false (c2 :: rest)
      else parseCsvPRGo rows row (field ++ [c]) inQuotes (c2 :: rest)
    else
      if c = '"' then parseCsvPRGo rows row field true (c2 :: rest)
      else if c = ',' then parseCsvPRGo rows (row ++ [field]) [] inQuotes (c2 :: rest)
      else if c = '\n' then
        parseCsvPRGo (pushRowPR rows (row ++ [field])) [] [] inQuotes (c2 :: rest)
      else if c = '\r' then
        if c2 = '\n' then parseCsvPRGo (pushRowPR rows (row ++ [field])) [] [] inQuotes rest
        else parseCsvPRGo (pushRowPR rows (row ++ [field])) [] [] inQuotes (c2 :: rest)
      else parseCsvPRGo rows row (field ++ [c]) inQuotes (c2 :: rest)

/-- The tokenizer `parseCsv(text)` from `src/unnamed/part_002` lines 60-141. -/
def parseCsvPR (text : String) : List (List String) :=
  (parseCsvPRGo [] [] [] false text.data).map (fun r => r.map String.mk)

/-! ## Browser environment

`Date.parse` / `new Date(string)`, `new Date(y,m,d)` (local midnight),
`Intl.DateTimeFormat(...).formatToParts` and the browser's resolved time
zone depend on the runtime; they are modelled as an explicit record of
functions.  `dateParse` returns the epoch-milliseconds timestamp, `none`
standing for `NaN`; `intlParts` returns the (hour, minute, zone-name)
parts for a zone and an instant; `localDateMs` is `new Date(y, m, d)`;
`msYear`/`msMonth` are `getFullYear`/`getMonth` of an instant in the
browser's zone. -/

structure JsEnv where
  browserTz : String
  dateParse : String → Option Int
  intlParts : String → Int → String × String × String
  localDateMs : Int → Int → Int → Option Int
  msYear : Int → Int
  msMonth : Int → Int

/-- A do-nothing environment used to instantiate theorems about
environment-independent behaviour. -/
def baseEnv : JsEnv :=
  { browserTz := "UTC"
    dateParse := fun _ => none
    intlParts := fun _ _ => ("", "", "")
    localDateMs := fun _ _ _ => none
    msYear := fun _ => 0
    msMonth := fun _ => 0 }

/-- The lookup `tzForState` from `src/app.js` lines 80-87: the state-to-zone lookup.
For any state outside the table it returns
`Intl.DateTimeFormat().resolvedOptions().timeZone` — the viewing
browser's own zone, passed here as `browserTz`. -/
def tzForState (browserTz state : String) : String :=
  let s := jsToUpper state
  if s = "AK" then "America/Anchorage"
  else if s = "HI" then "Pacific/Honolulu"
  else if ["CA", "OR", "WA", "NV"].contains s then "America/Los_Angeles"
  else if ["ID", "UT", "WY", "CO", "MT", "AZ", "NM"].contains s then "America/Denver"
  else browserTz

/-- The set of states the `tzForState` table actually maps. -/
def mappedState (state : String) : Bool :=
  let s := jsToUpper state
  s == "AK" || s == "HI" || ["CA", "OR", "WA", "NV"].contains s ||
    ["ID", "UT", "WY", "CO", "MT", "AZ", "NM"].contains s

/-- The formatter `formatLocalFromISO` from `src/app.js` lines 89-108: empty result for
an empty or unparseable ISO string, otherwise `"HH:MM TZ"` from the Intl
parts in the zone chosen by `tzForState`. -/
def formatLocalFromISO (env : JsEnv) (iso state : String) : String :=
  let z := norm iso
  if z = "" then ""
  else
    match env.dateParse z with
    | none => ""
    | some d =>
      let timeZone := tzForState env.browserTz state
      let p := env.intlParts timeZone d
      if p.1 ≠ "" ∧ p.2.1 ≠ "" then p.1 ++ ":" ++ p.2.1 ++ " " ++ p.2.2 else ""

/-- A browser sitting in Chicago in June 2025: `Date.parse` knows the one
ISO instant the counterexample uses, and Central daylight time is 5 hours
behind UTC, so `Intl` renders 18:00Z as 13:00 CDT. -/
def demoEnv : JsEnv :=
  { baseEnv with
    browserTz := "America/Chicago"
    dateParse := fun s => if s = "2025-06-01T18:00:00Z" then some 1748800800000 else none
    intlParts := fun tz _ => if tz = "America/Chicago" then ("13", "00", "CDT") else ("00", "00", "UTC") }

/-! ## Date helpers of the second `app.js` variant (lines 695-730)

`Date.UTC` is pure calendar arithmetic and is embedded directly
(proleptic Gregorian, day counting by the standard civil-from-days
algorithm); `Date.parse` stays in `JsEnv`.  `Date.UTC` yields `NaN` only
outside ±8.64e15 ms, which a 4-digit year as produced by
`mmddyyyyToParts` cannot reach, so `zuluToUTCDate`'s `isNaN` guard never
fires in the model. -/

/-- Numeric value of a digit string (the only shape `+m[1]` and
`t4.slice(..)` are applied to). -/
def digitsToNat (cs : List Char) : Nat :=
  cs.foldl (fun n c => n * 10 + (c.toNat - 48)) 0

/-- Split a character list at every `'/'`. -/
def splitOnSlash : List Char → List (List Char)
  | [] => [[]]
  | c :: rest =>
    let r := splitOnSlash rest
    if c = '/' then [] :: r else (c :: r.headD []) :: r.tail

/-- The regex `/^(\d{1,2})\/(\d{1,2})\/(\d{4})$/` as a match on an
un-trimmed string, yielding the three numbered groups. -/
def matchMDY (s : String) : Option (Int × Int × Int) :=
  match splitOnSlash s.data with
  | [a, b, c] =>
    if (1 ≤ a.length ∧ a.length ≤ 2 ∧ a.all Char.isDigit) ∧
        (1 ≤ b.length ∧ b.length ≤ 2 ∧ b.all Char.isDigit) ∧
        (c.length = 4 ∧ c.all Char.isDigit) then
      some ((digitsToNat a : Int), (digitsToNat b : Int), (digitsToNat c : Int))
    else none
  | _ => none

/-- The parser `mmddyyyyToParts` from `src/app.js` lines 695-699: the regex applied to
`(s || "").trim()`. -/
def mmddyyyyToParts (s : String) : Option (Int × Int × Int) :=
  matchMDY (jsTrim s)

/-- Days from the epoch 1970-01-01 of a civil date (y, m ∈ 1..12, d),
Hinnant's days-from-civil with floor division. -/
def daysFromCivil (y m d : Int) : Int :=
  let y' := if m ≤ 2 then y - 1 else y
  let era := Int.fdiv y' 400
  let yoe := y' - era * 400
  let mp := Int.emod (m + 9) 12
  let doy := Int.fdiv (153 * mp + 2) 5 + d - 1
  let doe := yoe * 365 + Int.fdiv yoe 4 - Int.fdiv yoe 100 + doy
  era * 146097 + doe - 719468

/-- The calendar arithmetic of `Date.UTC(y, mo, d, hh, mi, 0)` in epoch milliseconds: two-digit years
map to 19xx, month overflow rolls the year, day/hour/minute overflow rolls
forward by plain arithmetic. -/
def dateUTC (y mo d hh mi : Int) : Int :=
  let y2 := if 0 ≤ y ∧ y ≤ 99 then y + 1900 else y
  let ym := y2 + Int.fdiv mo 12
  let mn := Int.emod mo 12
  let days := daysFromCivil ym (mn + 1) 1 + (d - 1)
  (((days * 24 + hh) * 60 + mi) * 60) * 1000

/-- The builder `zuluToUTCDate` from `src/app.js` lines 701-714: an instant from an
`M/D/YYYY` date and the digits of a Zulu time string. -/
def zuluToUTCDate (event_date event_time_z : String) : Option Int :=
  match mmddyyyyToParts event_date with
  | none => none
  | some (mm, dd, yyyy) =>
    let t := event_time_z.data.filter Char.isDigit
    if t = [] then none
    else
      let t4 := List.replicate (4 - t.length) '0' ++ t
      let hh : Int := digitsToNat (t4.take 2)
      let mi : Int := digitsToNat ((t4.drop 2).take 2)
      some (dateUTC yyyy (mm - 1) dd hh mi)

/-- The sort key `bestDateScore` from `src/app.js` lines 716-730: prefer a parseable
`event_datetime_z`, else `event_date` + `event_time_z`, else a parseable
`report_date`, else 0. -/
def bestDateScore (env : JsEnv) (r : List (String × String)) : Int :=
  let fallback : Int :=
    match zuluToUTCDate (fieldOf r "event_date") (fieldOf r "event_time_z") with
    | some u => u
    | none =>
      if fieldOf r "report_date" ≠ "" then
        match env.dateParse (fieldOf r "report_date") with
        | some t => t
        | none => 0
      else 0
  if fieldOf r "event_datetime_z" ≠ "" then
    match env.dateParse (fieldOf r "event_datetime_z") with
    | some t => t
    | none => fallback
  else fallback

/-! ## Incident assembly (`toIncident`, `src/app.js` lines 247-319)

The structure keeps every string attribute the source object carries; the
JS `_`-prefix is dropped from the field names.  The spread of the raw row
(`...row`) and the two `safeParseJsonArray` results (`_sources`/`_media`,
which only repackage `sourcesJson`/`mediaJson` for the out-of-scope link
renderer) are not represented; the raw JSON strings that feed the search
haystack are. -/

structure Incident where
  state : String
  tail : String
  model : String
  city : String
  airport : String
  eventType : String
  phase : String
  reportDate : String
  pob : String
  injuries : String
  damage : String
  form8020 : String
  eventDate : String
  eventTimeZ : String
  eventISO : String
  localTime : String
  line2 : String
  narrative : String
  haystack : String
  sourcesJson : String
  mediaJson : String
  aircraftImageUrl : String
  aircraftImageType : String
deriving DecidableEq

/-- JS `array.filter(Boolean).join(sep)` on strings. -/
def joinTruthy (sep : String) (parts : List String) : String :=
  String.intercalate sep (parts.filter (fun s => s ≠ ""))

/-- The assembler `toIncident(row)` from `src/app.js` lines 247-319. -/
def toIncident (env : JsEnv) (row : List (String × String)) : Incident :=
  let state := getAny row ["state", "State"]
  let tail := getAny row ["aircraft_primary", "tail_number", "tail", "n_number"]
  let model := getAny row ["aircraft_primary_model", "aircraft_primary_m", "aircraft_model", "model"]
  let city := getAny row ["city", "location", "loc_city"]
  let airport := getAny row ["airport_code", "airport"]
  let eventType := getAny row ["event_type", "Event type", "type"]
  let phase := getAny row ["phase", "Phase"]
  let reportDate := getAny row ["report_date", "Report"]
  let pob := getAny row ["pob", "POB"]
  let injuries := getAny row ["injuries", "Injuries"]
  let damage := getAny row ["damage", "Damage"]
  let form8020 := getAny row ["8020_9", "8020-9", "faa_form_8020_9"]
  let eventDate := getAny row ["event_date", "date", "Event date"]
  let eventTimeZ := getAny row ["event_time_z", "time_z", "Event time z"]
  let eventISO := getAny row ["event_datetime_z", "datetime_z", "event_datetime", "Event datetime z"]
  let rawNarr := getAny row ["raw_narrative"]
  let narrFallback := getAny row ["narrative", "Narrative", "context_parens", "raw_text"]
  let narrative := jsOr (jsOr rawNarr narrFallback) "No narrative provided."
  let sourcesJson := getAny row ["sources_json"]
  let mediaJson := getAny row ["media_json"]
  let aircraftImageUrl := getAny row ["aircraft_image_url"]
  let aircraftImageType := getAny row ["aircraft_image_type"]
  let localTime := formatLocalFromISO env eventISO state
  let line2Left := joinTruthy ", " [jsOr city (if airport ≠ "" then airport else ""), state]
  let line2Right := [eventDate, eventTimeZ, localTime].filter (fun s => s ≠ "")
  let line2 :=
    if line2Right ≠ [] then
      line2Left ++ " • " ++ line2Right.headD "" ++ " (" ++
        String.intercalate " / " line2Right.tail ++ ")"
    else jsOr line2Left "Unknown location • Unknown date"
  let haystack := jsToLower (String.intercalate " "
    [tail, model, city, state, airport, eventType, phase,
     reportDate, pob, injuries, damage, form8020,
     eventDate, eventTimeZ, narrative, sourcesJson, mediaJson,
     aircraftImageUrl, aircraftImageType])
  { state := state
    tail := jsOr tail "Unknown aircraft"
    model := jsOr model "Unknown model"
    city := city
    airport := airport
    eventType := eventType
    phase := phase
    reportDate := reportDate
    pob := jsOr pob "Unknown"
    injuries := jsOr injuries "Unknown"
    damage := jsOr damage "Unknown"
    form8020 := jsOr form8020 "Unknown"
    eventDate := eventDate
    eventTimeZ := eventTimeZ
    eventISO := eventISO
    localTime := localTime
    line2 := line2
    narrative := narrative
    haystack := haystack
    sourcesJson := sourcesJson
    mediaJson := mediaJson
    aircraftImageUrl := aircraftImageUrl
    aircraftImageType := jsToLower aircraftImageType }

/-- The helper `getEventDate(it)` from `src/app.js` lines 192-212: the normalized ISO
if parseable, else a local-midnight date from a strict `M/D/YYYY` match,
else nothing. -/
def getEventDate (env : JsEnv) (it : Incident) : Option Int :=
  let viaIso : Option Int :=
    if it.eventISO ≠ "" then env.dateParse it.eventISO else none
  match viaIso with
  | some t => some t
  | none =>
    if it.eventDate ≠ "" then
      match matchMDY it.eventDate with
      | some (m1, dd, yy) => env.localDateMs yy (m1 - 1) dd
      | none => none
    else none

/-- The conversion `Number(s)` for the nonnegative-integer strings the year/month selects
produce (`""` is 0; anything non-numeric is `NaN`, here `none`). -/
def jsNumberInt (s : String) : Option Int :=
  let t := jsTrim s
  if t = "" then some 0
  else if t.data.all Char.isDigit then some (digitsToNat t.data) else none

/-- Contiguous-sublist test on character lists. -/
def listInfixOf (q : List Char) : List Char → Bool
  | [] => q.isEmpty
  | c :: t => q.isPrefixOf (c :: t) || listInfixOf q t

/-- JS `haystack.includes(q)`. -/
def includesStr (h q : String) : Bool := listInfixOf q.data h.data

/-- The per-incident predicate of `applyFilters` (`src/app.js` lines
473-487): state/event/phase exact match, haystack substring match, and the
year/month check against `getEventDate`. -/
def keepIncident (env : JsEnv) (st ev ph ySel mSel q : String) (it : Incident) : Bool :=
  (st == "" || it.state == st) &&
  (ev == "" || it.eventType == ev) &&
  (ph == "" || it.phase == ph) &&
  (q == "" || includesStr it.haystack q) &&
  (if ySel ≠ "" ∨ mSel ≠ "" then
    match getEventDate env it with
    | none => false
    | some t =>
      (ySel == "" || (match jsNumberInt ySel with
        | some n => env.msYear t == n
        | none => false)) &&
      (mSel == "" || (match jsNumberInt mSel with
        | some n => env.msMonth t == n
        | none => false))
   else true)

/-- The selection stage of `applyFilters` (`src/app.js` lines 463-487):
the control values pass through `norm`, the query is additionally
lowercased, and the incident list is filtered.  The subsequent sort
(lines 489-498) only permutes this selection. -/
def applyFiltersSelect (env : JsEnv) (incidents : List Incident)
    (searchV stV evV phV yV mV : String) : List Incident :=
  let q := jsToLower (norm searchV)
  incidents.filter (keepIncident env (norm stV) (norm evV) (norm phV) (norm yV) (norm mV) q)

/-- Raw-record construction from `init` (`src/app.js` lines 516-520):
`headers.forEach((h, i) => (obj[h] = r[i] ?? ""))`. -/
def buildRecord (headers cells : List String) : List (String × String) :=
  headers.enum.map (fun p => (p.2, cells.getD p.1 ""))

/-- The load pipeline of `init` (`src/app.js` lines 504-546) up to the
assembled incident list: parse, drop single-cell rows, fail on an empty
row list, split header/data, build records, assemble incidents.  The
`catch` that prints `Load error: ...` is the `Except.error` case. -/
def initLoad (env : JsEnv) (text : String) : Except String (List Incident) :=
  let rows := (parseCsv text).filter (fun r => 1 < r.length)
  if rows.isEmpty then Except.error "CSV is empty"
  else
    let headers := (rows.headD []).map norm
    let dataRows := rows.tail
    Except.ok ((dataRows.map (buildRecord headers)).map (toIncident env))

/-! ## Narrative Extractor

Modelled from the spec: §4.4 describes a heuristic extractor (callsign and
aircraft-type designator from the free-text narrative, used when the
structured `n_numbers` / `aircraft_primary_model` columns are absent).  No
variant under `src/` contains this subsystem — §1 notes it exists only "in
some variants" — so the definitions below follow the spec's words, not a
source function. -/

/-- Uppercase ASCII letter (the extractor works on the uppercased text). -/
def isUpperAZ (c : Char) : Bool := 'A' ≤ c ∧ c ≤ 'Z'

/-- Letter-or-digit, the extractor's notion of a word character. -/
def isWordAZ09 (c : Char) : Bool := isUpperAZ c || c.isDigit

/-- Take at most `n` leading characters satisfying `p`. -/
def takeUpTo : Nat → (Char → Bool) → List Char → List Char × List Char
  | 0, _, cs => ([], cs)
  | _ + 1, _, [] => ([], [])
  | n + 1, p, c :: cs =>
    if p c then
      let r := takeUpTo n p cs
      (c :: r.1, r.2)
    else ([], c :: cs)

/-- The next character (if any) does not satisfy `p`. -/
def headNot (p : Char → Bool) : List Char → Bool
  | [] => true
  | c :: _ => !p c

/-- Modelled from the spec: the callsign TOKEN shape, "2-4 letters followed
by 1-4 digits", word-bounded on both sides of the digit run. -/
def csTokenAt (cs : List Char) : Option (List Char × List Char) :=
  let r1 := takeUpTo 4 isUpperAZ cs
  if 2 ≤ r1.1.length ∧ headNot isUpperAZ r1.2 then
    let r2 := takeUpTo 4 Char.isDigit r1.2
    if 1 ≤ r2.1.length ∧ headNot isWordAZ09 r2.2 then
      some (r1.1 ++ r2.1, r2.2)
    else none
  else none

/-- Modelled from the spec: the sentinel non-callsign words.  The spec
requires rejecting "a sentinel non-callsign word" without enumerating the
set; no claim depends on its contents, so it is left empty. -/
def callsignSentinels : List String := []

/-- Modelled from the spec: a candidate is rejected if it has no digit,
begins with "RWY" or "GATE", or equals a sentinel word. -/
def callsignAccepted (tok : List Char) : Bool :=
  tok.any Char.isDigit &&
  !(List.isPrefixOf ['R', 'W', 'Y'] tok) &&
  !(List.isPrefixOf ['G', 'A', 'T', 'E'] tok) &&
  !(callsignSentinels.contains (String.mk tok))

/-- Skip spaces after a separator. -/
def skipSpaces (cs : List Char) : List Char := cs.dropWhile (fun c => c = ' ')

/-- Modelled from the spec: positional pattern "comma, TOKEN, comma";
first accepted match wins. -/
def scanCommaTokComma : List Char → Option (List Char)
  | [] => none
  | ',' :: rest =>
    (match csTokenAt (skipSpaces rest) with
     | some r =>
       if r.2.head? = some ',' ∧ callsignAccepted r.1 then some r.1
       else scanCommaTokComma rest
     | none => scanCommaTokComma rest)
  | _ :: rest => scanCommaTokComma rest

/-- Modelled from the spec: positional pattern "close-paren, comma, TOKEN". -/
def scanParenCommaTok : List Char → Option (List Char)
  | [] => none
  | [_] => none
  | ')' :: ',' :: rest =>
    (match csTokenAt (skipSpaces rest) with
     | some r => if callsignAccepted r.1 then some r.1 else scanParenCommaTok rest
     | none => scanParenCommaTok rest)
  | _ :: c2 :: rest => scanParenCommaTok (c2 :: rest)

/-- Modelled from the spec: positional pattern "parenthesized TOKEN". -/
def scanParenTok : List Char → Option (List Char)
  | [] => none
  | '(' :: rest =>
    (match csTokenAt rest with
     | some r =>
       if r.2.head? = some ')' ∧ callsignAccepted r.1 then some r.1
       else scanParenTok rest
     | none => scanParenTok rest)
  | _ :: rest => scanParenTok rest

/-- Modelled from the spec: pattern "leading TOKEN". -/
def leadingTok (cs : List Char) : Option (List Char) :=
  match csTokenAt cs with
  | some r => if callsignAccepted r.1 then some r.1 else none
  | none => none

/-- Modelled from the spec: callsign extraction — the ordered positional
heuristics applied to the uppercased narrative, earlier patterns taking
priority; `""` when none accepts. -/
def findCallsign (narrative : String) : String :=
  let u := (jsToUpper narrative).data
  match scanCommaTokComma u with
  | some t => String.mk t
  | none =>
    match scanParenCommaTok u with
    | some t => String.mk t
    | none =>
      match scanParenTok u with
      | some t => String.mk t
      | none =>
        match leadingTok u with
        | some t => String.mk t
        | none => ""

/-- Modelled from the spec: the generic aircraft-designator token shape,
"1-3 letters + 2-4 digits + optional letter", word-bounded. -/
def typeTokenAt (cs : List Char) : Option (List Char) :=
  let r1 := takeUpTo 3 isUpperAZ cs
  if 1 ≤ r1.1.length ∧ headNot isUpperAZ r1.2 then
    let r2 := takeUpTo 4 Char.isDigit r1.2
    if 2 ≤ r2.1.length ∧ headNot Char.isDigit r2.2 then
      let r3 := takeUpTo 1 isUpperAZ r2.2
      if headNot isWordAZ09 r3.2 then some (r1.1 ++ r2.1 ++ r3.1) else none
    else none
  else none

/-- Modelled from the spec: the "fixed exclusion set of common
ATC/organizational abbreviations" (a representative set; no claim depends
on the exact membership). -/
def atcExclusions : List String :=
  ["RWY", "TWY", "ILS", "VFR", "IFR", "ATC", "FAA", "NTSB", "UNICOM", "CTAF"]

/-- Modelled from the spec: a generic designator candidate is excluded when
it equals the extracted callsign, is a runway designator, is confirmed as
an airport identifier by appearing inside parentheses elsewhere in the
text, or belongs to the ATC exclusion set. -/
def typeAccepted (full : List Char) (callsign : String) (tok : List Char) : Bool :=
  !(String.mk tok == callsign) &&
  !(List.isPrefixOf ['R', 'W', 'Y'] tok) &&
  !(listInfixOf ('(' :: (tok ++ [')'])) full) &&
  !(atcExclusions.contains (String.mk tok))

/-- A model token after a manufacturer name: a run of word characters and
hyphens. -/
def takeModelTok (cs : List Char) : List Char :=
  cs.takeWhile (fun c => isWordAZ09 c || c = '-')

/-- Modelled from the spec: the recognized manufacturer names tried before
the generic token scan (a representative table; the spec marks it as an
incomplete lookup table). -/
def manufacturers : List String :=
  ["CESSNA", "PIPER", "BOEING", "BEECHCRAFT", "AIRBUS", "CIRRUS", "MOONEY", "DOUGLAS"]

/-- The suffix after the first occurrence of `pat`, if any. -/
def afterOccurrence (pat : List Char) : List Char → Option (List Char)
  | [] => if pat.isEmpty then some [] else none
  | c :: rest =>
    if List.isPrefixOf pat (c :: rest) then some ((c :: rest).drop pat.length)
    else afterOccurrence pat rest

/-- Modelled from the spec: manufacturer-specific extraction — a recognized
manufacturer name followed by a model token. -/
def findMfrModel (u : List Char) : List String → Option String
  | [] => none
  | m :: ms =>
    match afterOccurrence (m.data ++ [' ']) u with
    | some rest =>
      let tok := takeModelTok rest
      if tok ≠ [] then some (m ++ " " ++ String.mk tok) else findMfrModel u ms
    | none => findMfrModel u ms

/-- Modelled from the spec: the generic designator scan, attempted at every
word start, first accepted match wins. -/
def scanTypeTok (full : List Char) (callsign : String) : Bool → List Char → Option String
  | _, [] => none
  | atWordStart, c :: rest =>
    if atWordStart then
      match typeTokenAt (c :: rest) with
      | some tok =>
        if typeAccepted full callsign tok then some (String.mk tok)
        else scanTypeTok full callsign (!isWordAZ09 c) rest
      | none => scanTypeTok full callsign (!isWordAZ09 c) rest
    else scanTypeTok full callsign (!isWordAZ09 c) rest

/-- Modelled from the spec: aircraft type/designator extraction —
manufacturer patterns first, then the generic token scan, then the literal
"EXPERIMENTAL" keyword; `""` when nothing matches. -/
def findAircraftType (narrative callsign : String) : String :=
  let u := (jsToUpper narrative).data
  match findMfrModel u manufacturers with
  | some s => s
  | none =>
    match scanTypeTok u callsign true u with
    | some s => s
    | none => if listInfixOf "EXPERIMENTAL".data u then "EXPERIMENTAL" else ""

/-- Modelled from the spec: the narrative attribute the extractor reads
(canonical header `raw_narrative`). -/
def specNarrativeOf (row : List (String × String)) : String :=
  getAny row ["raw_narrative"]

/-- Modelled from the spec: the assembler's callsign attribute — the
structured `n_numbers` column when present and non-empty, otherwise the
narrative extraction. -/
def assembledCallsign (row : List (String × String)) : String :=
  jsOr (getAny row ["n_numbers"]) (findCallsign (specNarrativeOf row))

/-- Modelled from the spec: the assembler's aircraft-type attribute — the
structured `aircraft_primary_model` column when present and non-empty,
otherwise the narrative extraction. -/
def assembledAircraftType (row : List (String × String)) : String :=
  jsOr (getAny row ["aircraft_primary_model"])
    (findAircraftType (specNarrativeOf row) (assembledCallsign row))

/-- Follows the spec's words for the Field Resolver: trim each alias's
value in alias order (an absent alias counts as empty), keep the non-empty
ones, return the first, else `""`. -/
def resolveSpec (obj : List (String × String)) (keys : List String) : String :=
  ((keys.map (fun k => jsTrim ((jsGet obj k).getD ""))).filter (fun v => v ≠ "")).headD ""

/-- A browser that can parse the ISO report date `2025-01-01`
(1735689600000 ms after the epoch). -/
def env9 : JsEnv :=
  { baseEnv with
    dateParse := fun s => if s = "2025-01-01" then some 1735689600000 else none }

/-- The raw record of the C2 end-to-end scenario: a narrative-only record
with no structured `n_numbers` / `aircraft_primary_model` columns. -/
def c2Row : List (String × String) :=
  [("raw_narrative", "Aircraft departed Hawthorne (HHR), WSN2, KING-AIR B350.")]

/-! ## Theorems -/

/-- Nonempty fallback makes JS `a || b` nonempty. -/
theorem jsOr_ne (a b : String) (hb : b ≠ "") : jsOr a b ≠ "" := by
  unfold jsOr
  split <;> simp_all

/-- Unfolding lemma for `norm` (the bare name collides with `Norm.norm` in
rewrite lists). -/
theorem norm_eq (s : String) : norm s = jsTrim s := rfl

/-- C3: the tokenizer maps `a,"b,c","d""e"\nf,g,h` to exactly the two rows
`["a", "b,c", "d\"e"]` and `["f", "g", "h"]`: the quoted embedded comma is
preserved and the doubled quote collapses to one literal quote. -/
theorem parseCsv_fixture :
    parseCsv "a,\"b,c\",\"d\"\"e\"\nf,g,h" = [["a", "b,c", "d\"e"], ["f", "g", "h"]] := by
  decide

/-- C5 (counterexample): the claim fails on `parseCsv` of `src/app.js` —
the input `","` returns the row `["", ""]`, every cell of which trims to
the empty string (the newline/flush logic only drops blank single-cell
rows). -/
theorem parseCsv_blank_row_counterexample :
    parseCsv "," = [["", ""]] ∧
    (parseCsv ",").any (fun r => r.all (fun c => jsTrim c = "")) = true :=
  ⟨by decide, by decide⟩

/-- The filter `pushRowPR` preserves the no-blank-row invariant of the accumulated
rows. -/
theorem pushRowPR_no_blank (rows : List (List (List Char))) (row : List (List Char))
    (h : ∀ r ∈ rows, ∃ c ∈ r, jsTrimList c ≠ []) :
    ∀ r ∈ pushRowPR rows row, ∃ c ∈ r, jsTrimList c ≠ [] := by
  unfold pushRowPR
  split
  · exact h
  · next hall =>
    intro r hr
    rcases List.mem_append.mp hr with h1 | h2
    · exact h r h1
    · have hr2 : r = row := by simpa using h2
      subst hr2
      have hne : ¬ ∀ c ∈ r, jsTrimList c = [] := by
        simpa [List.all_eq_true] using hall
      push_neg at hne
      exact hne

/-- Rows already accumulated satisfying the invariant, the `part_002`
tokenizer loop only ever appends rows through `pushRowPR`, so its result
keeps the invariant. -/
theorem parseCsvPRGo_no_blank (rows : List (List (List Char))) (row : List (List Char))
    (field : List Char) (inQ : Bool) (input : List Char) :
    (∀ r ∈ rows, ∃ c ∈ r, jsTrimList c ≠ []) →
    ∀ r ∈ parseCsvPRGo rows row field inQ input, ∃ c ∈ r, jsTrimList c ≠ [] := by
  induction rows, row, field, inQ, input using parseCsvPRGo.induct with
  | _ =>
    intro h
    simp only [parseCsvPRGo]
    first
      | exact pushRowPR_no_blank _ _ h
      | (split_ifs <;>
          first
            | exact pushRowPR_no_blank _ _ h
            | solve_by_elim [pushRowPR_no_blank]
            | (exfalso; simp_all))

/-- C5 (amended): the `pushRow`-filtering tokenizer of
`src/unnamed/part_002` never returns a row whose cells all trim to the
empty string; the `parseCsv` of `src/app.js` only guarantees this for
single-cell rows ended by a newline, not for multi-cell blank rows. -/
theorem parseCsvPR_no_blank_rows (text : String) (r : List String)
    (hr : r ∈ parseCsvPR text) : ∃ c ∈ r, jsTrim c ≠ "" := by
  unfold parseCsvPR at hr
  rcases List.mem_map.mp hr with ⟨rc, hrc, rfl⟩
  rcases parseCsvPRGo_no_blank [] [] [] false text.data (by simp) rc hrc with ⟨c, hc, hcne⟩
  refine ⟨String.mk c, List.mem_map.mpr ⟨c, hc, rfl⟩, ?_⟩
  unfold jsTrim
  intro hcontra
  exact hcne (by simpa using congrArg String.data hcontra)

/-- C5 witness: the amended theorem applied to the concrete parse
`parseCsvPR "a" = [["a"]]`. -/
theorem parseCsvPR_no_blank_rows_witness :
    ∃ c ∈ ["a"], jsTrim c ≠ "" :=
  parseCsvPR_no_blank_rows "a" ["a"] (by decide)

/-- C7: `getAny` returns the trimmed value of the first alias that is
present and non-empty after trimming and `""` when none is (it coincides
with the spec-worded resolver), and on a record carrying both
`report_date="2025-01-01"` and `Report="01/01/2025"` the alias order
`[report_date, Report]` resolves to `"2025-01-01"`. -/
theorem getAny_first_nonempty :
    (∀ obj keys, getAny obj keys = resolveSpec obj keys) ∧
    getAny [("report_date", "2025-01-01"), ("Report", "01/01/2025")]
      ["report_date", "Report"] = "2025-01-01" := by
  constructor
  · intro obj keys
    induction keys with
    | nil => rfl
    | cons k ks ih =>
      have expand : resolveSpec obj (k :: ks) =
          if jsTrim ((jsGet obj k).getD "") = "" then resolveSpec obj ks
          else jsTrim ((jsGet obj k).getD "") := by
        simp only [resolveSpec, List.map_cons, List.filter_cons]
        split_ifs with h1 h2 h2 <;> simp_all
      rw [expand]
      show getAny obj (k :: ks) = _
      unfold getAny
      cases h : jsGet obj k with
      | none => simpa [norm_eq, jsTrim, jsTrimList] using ih
      | some v =>
        by_cases hv : jsTrim v = "" <;> simp_all [norm_eq]
  · decide

/-- Scanning an escaped body inside quote mode appends exactly the original
characters to the current cell: doubled quotes collapse to one literal
quote, every other character (commas and newlines included) is taken
literally, and the closing quote leaves quote mode. -/
theorem parseCsvGo_quoted_body (cs : List Char) :
    ∀ rows row cur, parseCsvGo rows row cur true (escBody cs ++ ['"']) =
      parseCsvGo rows row (cur ++ cs) false [] := by
  induction cs with
  | nil =>
    intro rows row cur
    simp [escBody, parseCsvGo]
  | cons c cs ih =>
    intro rows row cur
    by_cases hc : c = '"'
    · subst hc
      have hb : escBody ('"' :: cs) = '"' :: '"' :: escBody cs := by simp [escBody]
      rw [hb, List.cons_append, List.cons_append]
      rw [show parseCsvGo rows row cur true ('"' :: '"' :: (escBody cs ++ ['"'])) =
          parseCsvGo rows row (cur ++ ['"']) true (escBody cs ++ ['"']) from by
        simp [parseCsvGo]]
      rw [ih]
      simp
    · rcases hsh : escBody cs ++ ['"'] with _ | ⟨d, rest⟩
      · simp at hsh
      · have hb : escBody (c :: cs) = c :: escBody cs := by simp [escBody, hc]
        rw [hb, List.cons_append, hsh]
        rw [show parseCsvGo rows row cur true (c :: d :: rest) =
            parseCsvGo rows row (cur ++ [c]) true (d :: rest) from by
          simp [parseCsvGo, hc]]
        rw [← hsh, ih]
        simp

/-- C4: for every string containing a comma, a double-quote, or a newline,
`csvEscape` followed by the tokenizer returns that exact string as the
single cell of a single row. -/
theorem csvEscape_roundTrip (s : String)
    (h : ',' ∈ s.data ∨ '"' ∈ s.data ∨ '\n' ∈ s.data) :
    parseCsv (csvEscape s) = [[s]] := by
  have hwrap : csvEscape s = String.mk ('"' :: (escBody s.data ++ ['"'])) := by
    unfold csvEscape
    rw [if_pos]
    rcases h with h | h | h <;> exact List.any_eq_true.mpr ⟨_, h, by simp⟩
  have hne : s.data ≠ [] := by
    rcases h with h | h | h <;> exact List.ne_nil_of_mem h
  unfold parseCsv
  rw [hwrap]
  show (parseCsvGo [] [] [] false ('"' :: (escBody s.data ++ ['"']))).map
      (fun r => r.map String.mk) = [[s]]
  rcases hsh : escBody s.data ++ ['"'] with _ | ⟨d, rest⟩
  · simp at hsh
  · rw [show parseCsvGo [] [] [] false ('"' :: d :: rest) =
        parseCsvGo [] [] [] true (d :: rest) from by simp [parseCsvGo]]
    rw [← hsh, parseCsvGo_quoted_body]
    simp [parseCsvGo, hne]

/-- C4 witness: the round trip evaluated at `"a,b"`. -/
theorem csvEscape_roundTrip_witness :
    (',' ∈ "a,b".data ∨ '"' ∈ "a,b".data ∨ '\n' ∈ "a,b".data) ∧
    parseCsv (csvEscape "a,b") = [["a,b"]] :=
  ⟨by decide, csvEscape_roundTrip "a,b" (by decide)⟩

/-- C8: every assembled incident has a non-empty narrative (placeholder
`"No narrative provided."`) and a non-empty tail/display identity
(placeholder `"Unknown aircraft"`), whatever the raw record and browser
environment. -/
theorem toIncident_placeholders (env : JsEnv) (row : List (String × String)) :
    (toIncident env row).narrative ≠ "" ∧ (toIncident env row).tail ≠ "" := by
  refine ⟨?_, ?_⟩ <;> simp only [toIncident] <;> exact jsOr_ne _ _ (by decide)

/-- C6 (counterexample): a header-row-only CSV does not fail the load —
`init` of `src/app.js` lines 504-546 only throws when the filtered row
list is empty, so `"a,b\n"` (one header row, no data rows) succeeds with
an empty incident list instead of surfacing an error. -/
theorem initLoad_header_only_counterexample :
    parseCsv "a,b\n" = [["a", "b"]] ∧ initLoad baseEnv "a,b\n" = Except.ok [] :=
  ⟨by decide, rfl⟩

/-- C6 (amended): in the loader of `src/app.js` lines 504-546, a CSV whose
parse yields no multi-cell rows is fatal (`"CSV is empty"`), but a CSV
whose parse yields exactly one multi-cell row — a header with no data
rows — succeeds with an empty incident list.  (The separate loader at
lines 1231-1232 also rejects the header-only case.) -/
theorem initLoad_empty_fatal (env : JsEnv) (text : String) :
    (((parseCsv text).filter (fun r => 1 < r.length)).isEmpty = true →
      initLoad env text = Except.error "CSV is empty") ∧
    (∀ h, (parseCsv text).filter (fun r => 1 < r.length) = [h] →
      initLoad env text = Except.ok []) := by
  constructor
  · intro hempty
    simp [initLoad, hempty]
  · intro h hone
    simp [initLoad, hone]

/-- C6 witness: the amended theorem applied to the empty input and to a
header-only input. -/
theorem initLoad_empty_fatal_witness :
    initLoad baseEnv "" = Except.error "CSV is empty" ∧
    initLoad baseEnv "x,y\n" = Except.ok [] :=
  ⟨(initLoad_empty_fatal baseEnv "").1 (by decide),
   (initLoad_empty_fatal baseEnv "x,y\n").2 ["x", "y"] (by decide)⟩

/-- C9: `bestDateScore` resolves the sort timestamp in priority order — a
parseable non-empty `event_datetime_z` wins; otherwise an instant built
from `event_date` + `event_time_z`; otherwise a parseable non-empty
`report_date`; otherwise 0 (the epoch). -/
theorem bestDateScore_priority (env : JsEnv) (r : List (String × String)) :
    (fieldOf r "event_datetime_z" ≠ "" →
      ∀ t, env.dateParse (fieldOf r "event_datetime_z") = some t →
        bestDateScore env r = t) ∧
    ((fieldOf r "event_datetime_z" = "" ∨
        env.dateParse (fieldOf r "event_datetime_z") = none) →
      ∀ u, zuluToUTCDate (fieldOf r "event_date") (fieldOf r "event_time_z") = some u →
        bestDateScore env r = u) ∧
    ((fieldOf r "event_datetime_z" = "" ∨
        env.dateParse (fieldOf r "event_datetime_z") = none) →
      zuluToUTCDate (fieldOf r "event_date") (fieldOf r "event_time_z") = none →
      fieldOf r "report_date" ≠ "" →
      ∀ t, env.dateParse (fieldOf r "report_date") = some t →
        bestDateScore env r = t) ∧
    ((fieldOf r "event_datetime_z" = "" ∨
        env.dateParse (fieldOf r "event_datetime_z") = none) →
      zuluToUTCDate (fieldOf r "event_date") (fieldOf r "event_time_z") = none →
      (fieldOf r "report_date" = "" ∨ env.dateParse (fieldOf r "report_date") = none) →
      bestDateScore env r = 0) := by
  refine ⟨?_, ?_, ?_, ?_⟩
  · intro hne t ht
    simp [bestDateScore, hne, ht]
  · rintro (hd | hd) u hu
    · simp [bestDateScore, hd, hu]
    · by_cases hne : fieldOf r "event_datetime_z" = "" <;>
        simp [bestDateScore, hne, hd, hu]
  · rintro (hd | hd) hz hrne t ht
    · simp [bestDateScore, hd, hz, hrne, ht]
    · by_cases hne : fieldOf r "event_datetime_z" = "" <;>
        simp [bestDateScore, hne, hd, hz, hrne, ht]
  · rintro (hd | hd) hz hrd
    · rcases hrd with hrd | hrd <;> simp [bestDateScore, hd, hz, hrd]
    · by_cases hne : fieldOf r "event_datetime_z" = "" <;>
        rcases hrd with hrd | hrd <;> simp [bestDateScore, hne, hd, hz, hrd]

/-- C9 witness: a record with only `report_date` set sorts by the parsed
report date, and a record where all three sources fail gets sort key 0. -/
theorem bestDateScore_priority_witness :
    bestDateScore env9 [("report_date", "2025-01-01")] = 1735689600000 ∧
    bestDateScore env9 [] = 0 :=
  ⟨(bestDateScore_priority env9 [("report_date", "2025-01-01")]).2.2.1
      (Or.inl (by decide)) (by decide) (by decide) 1735689600000 (by decide),
   (bestDateScore_priority env9 []).2.2.2
      (Or.inl (by decide)) (by decide) (Or.inl (by decide))⟩

/-- C1 (counterexample): the claim fails on the code — for a record with
an empty (unknown) state and a parseable ISO timestamp, the local-time
label is not omitted: `tzForState` falls back to the browser's own
resolved time zone and `formatLocalFromISO` renders a label in it. -/
theorem formatLocal_browser_counterexample :
    formatLocalFromISO demoEnv "2025-06-01T18:00:00Z" "" = "13:00 CDT" ∧
    tzForState demoEnv.browserTz "" = demoEnv.browserTz :=
  ⟨by decide, by decide⟩

/-- C1 (amended): for a state outside the lookup table (empty or unknown
included), `tzForState` returns the browser's own time zone, and the
local-time label is omitted only when the ISO timestamp is empty or
unparseable (or the Intl formatter yields no hour/minute); when the
timestamp parses, the label is computed in the browser's own zone. -/
theorem tzForState_fallback (env : JsEnv) (iso state : String)
    (hstate : mappedState state = false) :
    tzForState env.browserTz state = env.browserTz ∧
    (norm iso = "" → formatLocalFromISO env iso state = "") ∧
    (env.dateParse (norm iso) = none → formatLocalFromISO env iso state = "") ∧
    (norm iso ≠ "" → ∀ t, env.dateParse (norm iso) = some t →
      formatLocalFromISO env iso state =
        (if (env.intlParts env.browserTz t).1 ≠ "" ∧
            (env.intlParts env.browserTz t).2.1 ≠ "" then
          (env.intlParts env.browserTz t).1 ++ ":" ++
            (env.intlParts env.browserTz t).2.1 ++ " " ++
            (env.intlParts env.browserTz t).2.2
        else "")) := by
  have htz : tzForState env.browserTz state = env.browserTz := by
    simp only [tzForState]
    split_ifs with hA hH hP hM
    · exact absurd hstate (by simp [mappedState, hA])
    · exact absurd hstate (by simp [mappedState, hH])
    · refine absurd hstate ?_
      have hs : jsToUpper state = "CA" ∨ jsToUpper state = "OR" ∨
          jsToUpper state = "WA" ∨ jsToUpper state = "NV" := by simpa using hP
      rcases hs with h | h | h | h <;> simp [mappedState, h]
    · refine absurd hstate ?_
      have hs : jsToUpper state = "ID" ∨ jsToUpper state = "UT" ∨
          jsToUpper state = "WY" ∨ jsToUpper state = "CO" ∨ jsToUpper state = "MT" ∨
          jsToUpper state = "AZ" ∨ jsToUpper state = "NM" := by simpa using hM
      rcases hs with h | h | h | h | h | h | h <;> simp [mappedState, h]
    · rfl
  refine ⟨htz, ?_, ?_, ?_⟩
  · intro hz
    simp [formatLocalFromISO, hz]
  · intro hp
    by_cases hz : norm iso = "" <;> simp [formatLocalFromISO, hz, hp]
  · intro hz t ht
    simp [formatLocalFromISO, hz, ht, htz]

/-- C1 witness: the amended theorem applied at the Chicago browser, an
unmapped state `TX`, and a parseable June 2025 instant. -/
theorem tzForState_fallback_witness :
    mappedState "TX" = false ∧
    formatLocalFromISO demoEnv "2025-06-01T18:00:00Z" "TX" =
      (if (demoEnv.intlParts demoEnv.browserTz 1748800800000).1 ≠ "" ∧
          (demoEnv.intlParts demoEnv.browserTz 1748800800000).2.1 ≠ "" then
        (demoEnv.intlParts demoEnv.browserTz 1748800800000).1 ++ ":" ++
          (demoEnv.intlParts demoEnv.browserTz 1748800800000).2.1 ++ " " ++
          (demoEnv.intlParts demoEnv.browserTz 1748800800000).2.2
      else "") :=
  ⟨by decide,
   (tzForState_fallback demoEnv "2025-06-01T18:00:00Z" "TX" (by decide)).2.2.2
     (by decide) 1748800800000 (by decide)⟩

/-- C10: the selection stage of `applyFilters` is insensitive to the case
of the search query — two queries equal after normalization and
lowercasing (in particular any upper/lower-case variants of each other)
select exactly the same incidents, because the query is lowercased before
being matched against the precomputed lowercase haystack. -/
theorem applyFiltersSelect_case_insensitive (env : JsEnv) (incidents : List Incident)
    (searchV searchV' stV evV phV yV mV : String)
    (h : jsToLower (norm searchV) = jsToLower (norm searchV')) :
    applyFiltersSelect env incidents searchV stV evV phV yV mV =
      applyFiltersSelect env incidents searchV' stV evV phV yV mV := by
  unfold applyFiltersSelect
  rw [h]

/-- C10 witness: the query `"LANDING"` and its lowercase variant select
the same incidents from a concrete one-incident list. -/
theorem applyFiltersSelect_case_insensitive_witness :
    jsToLower (norm "LANDING") = jsToLower (norm "landing") ∧
    applyFiltersSelect baseEnv
        [toIncident baseEnv [("state", "AK"), ("raw_narrative", "Hard landing.")]]
        "LANDING" "" "" "" "" "" =
      applyFiltersSelect baseEnv
        [toIncident baseEnv [("state", "AK"), ("raw_narrative", "Hard landing.")]]
        "landing" "" "" "" "" "" :=
  ⟨by decide,
   applyFiltersSelect_case_insensitive baseEnv
     [toIncident baseEnv [("state", "AK"), ("raw_narrative", "Hard landing.")]]
     "LANDING" "landing" "" "" "" "" "" (by decide)⟩

/-- C2 (spec-modelled): on the narrative `"...(HHR), WSN2, KING-AIR
B350."` with no structured identity columns, the assembled callsign is
`WSN2` (the "comma, TOKEN, comma" heuristic) and the assembled aircraft
type is the non-empty token `B350`, which is neither `HHR` nor `WSN2`. -/
theorem narrative_extraction_scenario :
    assembledCallsign c2Row = "WSN2" ∧
    assembledAircraftType c2Row = "B350" ∧
    assembledAircraftType c2Row ≠ "" ∧
    assembledAircraftType c2Row ≠ "HHR" ∧
    assembledAircraftType c2Row ≠ "WSN2" := by
  refine ⟨by decide, by decide, by decide, by decide, by decide⟩
